import Mathlib

/-!
Verification of `pulp_rpm/app/modulemd.py`.

The file shallowly embeds the four functions of the module —
`resolve_module_packages`, `_create_snippet`, `parse_modulemd` and
`parse_defaults` — as executable Lean definitions and proves the
specification's testable properties about them.

Content units (modules and packages) are identified by their primary keys,
modelled as natural numbers.  A repository version is the finite set of
primary keys of the content it holds; the surrounding database is a `Repo`
environment giving each content unit its `pulp_type` string and each
modulemd its related package set (`module.packages.all()`).
-/

namespace PulpRpm

/-- Database environment: `ptype c` is the `pulp_type` of content unit `c`
(for example `"rpm.modulemd"` or `"rpm.package"`), and `modPackages m` is the
set of package keys related to modulemd `m`, i.e. `m.packages.all()`. -/
structure Repo where
  ptype : Nat → String
  modPackages : Nat → Finset Nat

/-- The inner helper `modules_packages(modules)` of `resolve_module_packages`:
the union of `module.packages.all()` over the given modules. -/
def modules_packages (env : Repo) (modules : Finset Nat) : Finset Nat :=
  modules.biUnion env.modPackages

/-- `version.content.filter(pulp_type=t)`: the content of the version whose
`pulp_type` equals `t`. -/
def contentOfType (env : Repo) (version : Finset Nat) (t : String) : Finset Nat :=
  version.filter (fun c => env.ptype c = t)

/-- Everything `resolve_module_packages` computes: the module/package sets it
builds along the way and the version content after the removal and addition
passes have been applied. -/
structure ResolveResult where
  added_modules : Finset Nat
  removed_modules : Finset Nat
  packages_to_remove : Finset Nat
  packages_to_add : Finset Nat
  current_packages : Finset Nat
  newVersion : Finset Nat

/-- Embedding of `resolve_module_packages(version, previous_version)`.

Mirrors the source line by line: `current_modules` is the modulemd content of
the version under construction; with a previous version, added/removed modules
are plain set differences, `packages_to_remove` is the difference of the
reachable package sets and is removed first (`version.remove_content`, which
only touches rows of the `Package` table, hence the `"rpm.package"` filter);
then `current_packages` is read from the (already shrunk) version and
`packages_to_add` is added (`version.add_content`, again `Package` rows only).
Without a previous version every current module counts as added and no
removal pass runs. -/
def resolve_module_packages (env : Repo) (version : Finset Nat)
    (previous_version : Option (Finset Nat)) : ResolveResult :=
  let current_modules := contentOfType env version "rpm.modulemd"
  match previous_version with
  | some previous =>
    let previous_modules := contentOfType env previous "rpm.modulemd"
    let added_modules := current_modules \ previous_modules
    let removed_modules := previous_modules \ current_modules
    let current_module_packages := modules_packages env current_modules
    let removed_module_packages := modules_packages env removed_modules
    let packages_to_remove := removed_module_packages \ current_module_packages
    let version1 := version \ (packages_to_remove.filter (fun c => env.ptype c = "rpm.package"))
    let added_module_packages := modules_packages env added_modules
    let current_packages := contentOfType env version1 "rpm.package"
    let packages_to_add := added_module_packages \ current_packages
    let version2 := version1 ∪ (packages_to_add.filter (fun c => env.ptype c = "rpm.package"))
    ⟨added_modules, removed_modules, packages_to_remove, packages_to_add,
      current_packages, version2⟩
  | none =>
    let added_modules := current_modules
    let added_module_packages := modules_packages env added_modules
    let current_packages := contentOfType env version "rpm.package"
    let packages_to_add := added_module_packages \ current_packages
    let version2 := version ∪ (packages_to_add.filter (fun c => env.ptype c = "rpm.package"))
    ⟨added_modules, ∅, ∅, packages_to_add, current_packages, version2⟩

/-- Concrete database used to instantiate the reconciliation theorems:
keys `0,…,10` are modulemds, keys above `10` are packages; module `1` owns
packages `11, 12` and module `2` owns packages `12, 13`. -/
def testRepo : Repo where
  ptype := fun c => if c ≤ 10 then "rpm.modulemd" else "rpm.package"
  modPackages := fun m =>
    if m = 1 then {11, 12} else if m = 2 then {12, 13} else ∅

/-- C1: with a previous version, `packages_to_remove` is exactly the set of
packages reachable from removed modules minus the packages reachable from the
modules of the next version; consequently a package reachable from any module
present in the next version is never in `packages_to_remove`. -/
theorem resolve_conservation (env : Repo) (version previous : Finset Nat) :
    (resolve_module_packages env version (some previous)).packages_to_remove
      = modules_packages env
          (contentOfType env previous "rpm.modulemd" \ contentOfType env version "rpm.modulemd")
        \ modules_packages env (contentOfType env version "rpm.modulemd")
    ∧ ∀ m p, m ∈ version → env.ptype m = "rpm.modulemd" → p ∈ env.modPackages m →
        p ∉ (resolve_module_packages env version (some previous)).packages_to_remove := by
  refine ⟨rfl, ?_⟩
  intro m p hm ht hp hcontra
  have hmem : p ∈ modules_packages env (contentOfType env version "rpm.modulemd") := by
    exact Finset.mem_biUnion.mpr ⟨m, Finset.mem_filter.mpr ⟨hm, ht⟩, hp⟩
  have : p ∉ modules_packages env (contentOfType env version "rpm.modulemd") :=
    (Finset.mem_sdiff.mp hcontra).2
  exact this hmem

/-- C1 witness: in `testRepo`, with previous version `{1, 11, 12}` and next
version `{2, 12}`, package `12` is reachable from module `2` of the next
version and is therefore not removed (even though removed module `1` also
reaches it). -/
theorem resolve_conservation_witness :
    (2 ∈ ({2, 12} : Finset Nat) ∧ testRepo.ptype 2 = "rpm.modulemd"
      ∧ 12 ∈ testRepo.modPackages 2)
    ∧ 12 ∉ (resolve_module_packages testRepo {2, 12} (some {1, 11, 12})).packages_to_remove :=
  ⟨⟨by decide, by decide, by decide⟩,
    (resolve_conservation testRepo {2, 12} {1, 11, 12}).2 2 12
      (by decide) (by decide) (by decide)⟩

/-- C2: on a first sync (no previous version) every module of the current
version is treated as added, nothing is treated as removed, the set of
packages to remove is empty, and nothing is removed from the version. -/
theorem resolve_first_sync (env : Repo) (version : Finset Nat) :
    (resolve_module_packages env version none).added_modules
        = contentOfType env version "rpm.modulemd"
    ∧ (resolve_module_packages env version none).removed_modules = ∅
    ∧ (resolve_module_packages env version none).packages_to_remove = ∅
    ∧ version ⊆ (resolve_module_packages env version none).newVersion := by
  exact ⟨rfl, rfl, rfl, Finset.subset_union_left⟩

/-- C3: `packages_to_add` is exactly the set of packages reachable from the
added modules minus the packages already present in the version under
construction; consequently a package already present is never added again. -/
theorem resolve_no_readd (env : Repo) (version : Finset Nat)
    (previous_version : Option (Finset Nat)) :
    (resolve_module_packages env version previous_version).packages_to_add
      = modules_packages env (resolve_module_packages env version previous_version).added_modules
        \ (resolve_module_packages env version previous_version).current_packages
    ∧ ∀ p ∈ (resolve_module_packages env version previous_version).current_packages,
        p ∉ (resolve_module_packages env version previous_version).packages_to_add := by
  cases previous_version with
  | none =>
    refine ⟨rfl, ?_⟩
    intro p hp hcontra
    exact (Finset.mem_sdiff.mp hcontra).2 hp
  | some previous =>
    refine ⟨rfl, ?_⟩
    intro p hp hcontra
    exact (Finset.mem_sdiff.mp hcontra).2 hp

/-- C3 witness: in `testRepo`, reconciling version `{2, 12}` against previous
`{1, 11, 12}`, package `12` is already present in the version under
construction and is not in `packages_to_add`. -/
theorem resolve_no_readd_witness :
    12 ∈ (resolve_module_packages testRepo {2, 12} (some {1, 11, 12})).current_packages
    ∧ 12 ∉ (resolve_module_packages testRepo {2, 12} (some {1, 11, 12})).packages_to_add :=
  ⟨by decide, (resolve_no_readd testRepo {2, 12} (some {1, 11, 12})).2 12 (by decide)⟩

/-- C6: reconciling against a previous version whose modulemd membership is
identical yields empty add and remove sets and leaves the version content
unchanged. -/
theorem resolve_idempotent (env : Repo) (version previous : Finset Nat)
    (h : contentOfType env previous "rpm.modulemd" = contentOfType env version "rpm.modulemd") :
    (resolve_module_packages env version (some previous)).packages_to_add = ∅
    ∧ (resolve_module_packages env version (some previous)).packages_to_remove = ∅
    ∧ (resolve_module_packages env version (some previous)).newVersion = version := by
  simp [resolve_module_packages, h, modules_packages]

/-- C6 witness: in `testRepo`, version `{1, 11}` against previous `{1, 12}`
(same module membership `{1}`) yields empty add and remove sets and an
unchanged version. -/
theorem resolve_idempotent_witness :
    (contentOfType testRepo {1, 12} "rpm.modulemd"
        = contentOfType testRepo {1, 11} "rpm.modulemd")
    ∧ ((resolve_module_packages testRepo {1, 11} (some {1, 12})).packages_to_add = ∅
      ∧ (resolve_module_packages testRepo {1, 11} (some {1, 12})).packages_to_remove = ∅
      ∧ (resolve_module_packages testRepo {1, 11} (some {1, 12})).newVersion = {1, 11}) :=
  ⟨by decide, resolve_idempotent testRepo {1, 11} {1, 12} (by decide)⟩

/-- C10: `resolve_module_packages` only ever adds or removes content of
package type; any content unit whose `pulp_type` is not `"rpm.package"` is in
the resulting version exactly when it was in the input version. -/
theorem resolve_frame (env : Repo) (version : Finset Nat)
    (previous_version : Option (Finset Nat)) (c : Nat)
    (h : env.ptype c ≠ "rpm.package") :
    c ∈ version ↔ c ∈ (resolve_module_packages env version previous_version).newVersion := by
  cases previous_version with
  | none =>
    simp only [resolve_module_packages, Finset.mem_union, Finset.mem_filter]
    constructor
    · intro hv; exact Or.inl hv
    · intro hv
      rcases hv with hv | hv
      · exact hv
      · exact absurd hv.2 h
  | some previous =>
    simp only [resolve_module_packages, Finset.mem_union, Finset.mem_sdiff, Finset.mem_filter]
    constructor
    · intro hv
      exact Or.inl ⟨hv, fun hc => absurd hc.2 h⟩
    · intro hv
      rcases hv with hv | hv
      · exact hv.1
      · exact absurd hv.2 h

/-- C10 witness: in `testRepo`, the modulemd content unit `2` (not a package)
is present in version `{2, 12}` and still present after reconciliation
against previous version `{1, 11, 12}`. -/
theorem resolve_frame_witness :
    (testRepo.ptype 2 ≠ "rpm.package")
    ∧ (2 ∈ ({2, 12} : Finset Nat)
        ↔ 2 ∈ (resolve_module_packages testRepo {2, 12} (some {1, 11, 12})).newVersion) :=
  ⟨by decide, resolve_frame testRepo {2, 12} (some {1, 11, 12}) 2 (by decide)⟩

/-! ### Snippet materialization (`_create_snippet`) -/

/-- Model of the working directory: an association list from temp-file names
(numbers handed out by `tempfile`) to file contents; a later entry for the
same name shadows an earlier one. -/
structure FS where
  files : List (Nat × String)

/-- Creating a file (as `tempfile.NamedTemporaryFile(dir=os.getcwd(),
delete=False)` does): an empty file that will not be deleted automatically. -/
def FS.create (fs : FS) (name : Nat) : FS :=
  ⟨(name, "") :: fs.files⟩

/-- Writing a file: `open(name, 'w')` followed by `write(content)` replaces
the file's contents. -/
def FS.write (fs : FS) (name : Nat) (content : String) : FS :=
  ⟨(name, content) :: fs.files⟩

/-- Reading a file's current contents. -/
def FS.read (fs : FS) (name : Nat) : String :=
  match fs.files.find? (fun p => p.1 == name) with
  | some p => p.2
  | none => ""

/-- Whether a file with the given name exists on disk. -/
def FS.has (fs : FS) (name : Nat) : Bool :=
  fs.files.any (fun p => p.1 == name)

/-- An artifact handle, reduced to the strong content-hash digest the rest of
the code consumes (`artifact.sha256`). -/
structure Artifact where
  sha256 : Nat

/-- Modelled from the spec: `Artifact.init_and_validate` belongs to the
collaborator artifact/blob store (pulpcore, outside this repository); per the
external-interface contract it reads the file at the given path and computes
its strong content-hash digest.  The hash function itself is an arbitrary
parameter. -/
def Artifact.init_and_validate (hash : String → Nat) (fs : FS) (name : Nat) : Artifact :=
  ⟨hash (fs.read name)⟩

/-- Embedding of `_create_snippet(snippet_string)`.

`tmpName` is the fresh name `tempfile` hands out and `writeOk` says whether
the write I/O succeeds.  The source creates the temp file with
`delete=False`, writes the snippet string to it and returns
`Artifact.init_and_validate(tmp_file.name)`; it contains no cleanup code, so
on the failure path the (empty) temp file stays on disk and the error
propagates. -/
def create_snippet (hash : String → Nat) (writeOk : Bool) (tmpName : Nat)
    (fs : FS) (snippet_string : String) : Except String Artifact × FS :=
  let fs1 := fs.create tmpName
  if writeOk then
    let fs2 := fs1.write tmpName snippet_string
    (Except.ok (Artifact.init_and_validate hash fs2 tmpName), fs2)
  else
    (Except.error "IOFailure", fs1)

/-- Reading a name just written returns the written content. -/
theorem FS.read_write (fs : FS) (name : Nat) (content : String) :
    (fs.write name content).read name = content := by
  simp [FS.write, FS.read, List.find?]

/-- C4: at the concrete failing input (a write failure while materializing
snippet `"gorilla"`), `_create_snippet` surfaces the I/O error but leaves the
temporary file it acquired on disk — no exit path cleans it up, contradicting
the claimed guaranteed cleanup. -/
theorem create_snippet_leaks_on_failure :
    (create_snippet String.length false 0 ⟨[]⟩ "gorilla").1 = Except.error "IOFailure"
    ∧ ((create_snippet String.length false 0 ⟨[]⟩ "gorilla").2).has 0 = true :=
  ⟨rfl, rfl⟩

/-- C7: materializing the same snippet string twice — with any hash function,
any temp names and any starting directories — yields artifact handles with
equal digests. -/
theorem create_snippet_deterministic (hash : String → Nat) (n1 n2 : Nat)
    (fs1 fs2 : FS) (s : String) :
    Except.map Artifact.sha256 (create_snippet hash true n1 fs1 s).1
      = Except.map Artifact.sha256 (create_snippet hash true n2 fs2 s).1 := by
  simp [create_snippet, Artifact.init_and_validate, FS.read_write, Except.map]

/-! ### Metadata decomposition (`parse_modulemd`, `parse_defaults`) -/

/-- A dependency clause of a stream, at the interface the source consumes:
`runtime_modules` is `dep.get_runtime_modules()` and `runtime_streams m` is
`dep.get_runtime_streams(m)`. -/
structure DependencyClause where
  runtime_modules : List String
  runtime_streams : String → List String

/-- A libmodulemd stream handle, at the interface the source consumes
(`s.props.*`, `s.get_rpm_artifacts()`, `s.get_dependencies()`). -/
structure StreamHandle where
  module_name : String
  stream_name : String
  version : Nat
  context : String
  arch : String
  rpm_artifacts : List String
  dependencies : List DependencyClause

/-- A libmodulemd defaults handle, at the interface the source consumes
(`get_default_stream()`, `get_default_profiles_for_stream(stream)`). -/
structure DefaultsHandle where
  get_default_stream : String
  get_default_profiles_for_stream : String → List String

/-- The merged libmodulemd index, at the interface the source consumes.
`get_all_streams m` is `index.get_module(m).get_all_streams()`;
`dump_stream s` is `temp_index.dump_to_string()` for a fresh singleton index
holding only `s`; `default_streams_keys` is `get_default_streams().keys()`;
`get_defaults m` is `index.get_module(m).get_defaults()` (`none` when
absent); `get_module_name m` is `index.get_module(m).get_module_name()`; and
`dump_defaults d` is `temp_index.dump_to_string()` for a fresh singleton
index holding only the defaults object `d`. -/
structure ModuleIndex where
  get_all_streams : String → List StreamHandle
  dump_stream : StreamHandle → String
  default_streams_keys : List String
  get_defaults : String → Option DefaultsHandle
  get_module_name : String → String
  dump_defaults : DefaultsHandle → String

/-- Python-dict assignment `d[k] = v`: overwrite the entry for `k` in place
if one exists, otherwise append a new entry.  Starting from the empty dict
this keeps keys unique, exactly like a Python `dict`. -/
def dict_set : List (String × List String) → String → List String → List (String × List String)
  | [], k, v => [(k, v)]
  | p :: rest, k, v => if p.1 = k then (k, v) :: rest else p :: dict_set rest k v

/-- Python-dict lookup `d.get(k)`. -/
def dict_get : List (String × List String) → String → Option (List String)
  | [], _ => none
  | p :: rest, k => if p.1 = k then some p.2 else dict_get rest k

/-- `json.dumps` on a string (escaping backslash and double quote; control
and non-ASCII escapes are irrelevant to the inputs considered here). -/
def json_dumps_str (s : String) : String :=
  "\"" ++ String.join (s.toList.map (fun c =>
    if c = '\\' then "\\\\" else if c = '"' then "\\\"" else String.singleton c)) ++ "\""

/-- `json.dumps` on a list of strings. -/
def json_dumps (l : List String) : String :=
  "[" ++ String.intercalate ", " (l.map json_dumps_str) ++ "]"

/-- `json.dumps` on a dict from strings to lists of strings, in insertion
order. -/
def json_dumps_dict (d : List (String × List String)) : String :=
  "\x7b" ++ String.intercalate ", "
    (d.map (fun p => json_dumps_str p.1 ++ ": " ++ json_dumps p.2)) ++ "\x7d"

/-- The dependency-map loop of `parse_modulemd` (lines building the
`dependencies` dict): iterate the clauses in declaration order and, for each
clause, assign `dependencies[name] = dep.get_runtime_streams(name)` for every
runtime module name the clause lists. -/
def build_dependencies (clauses : List DependencyClause) : List (String × List String) :=
  clauses.foldl (fun dependencies dep =>
    dep.runtime_modules.foldl (fun dependencies dependency =>
      dict_set dependencies dependency (dep.runtime_streams dependency)) dependencies) []

/-- One decomposed modulemd record, with the same attributes the source dict
carries; the snippet artifact is represented by the serialized snippet string
and its content digest (see `create_snippet` and `Artifact.init_and_validate`). -/
structure ModulemdRecord where
  name : String
  stream : String
  version : Nat
  context : String
  arch : String
  artifacts : String
  dependencies : String
  snippet : String
  artifact_sha256 : Nat

/-- The body of `parse_modulemd`'s inner loop: the record built for one
stream `s`. -/
def parse_stream (hash : String → Nat) (module_index : ModuleIndex)
    (s : StreamHandle) : ModulemdRecord :=
  let snippet := module_index.dump_stream s
  { name := s.module_name
    stream := s.stream_name
    version := s.version
    context := s.context
    arch := s.arch
    artifacts := json_dumps s.rpm_artifacts
    dependencies := json_dumps_dict (build_dependencies s.dependencies)
    snippet := snippet
    artifact_sha256 := hash snippet }

/-- Embedding of `parse_modulemd(module_names, module_index)`: one record per
stream of each requested module, in module-name order then stream order. -/
def parse_modulemd (hash : String → Nat) (module_names : List String)
    (module_index : ModuleIndex) : List ModulemdRecord :=
  module_names.flatMap (fun module =>
    (module_index.get_all_streams module).map (parse_stream hash module_index))

/-- One decomposed modulemd-defaults record, with the same attributes the
source dict carries. -/
structure ModulemdDefaultsRecord where
  module : String
  stream : String
  profiles : String
  digest : Nat
  snippet : String

/-- The body of `parse_defaults`' loop for one module name: skip when
`get_defaults()` is absent, otherwise build the record (the artifact digest
is the content hash of the dumped singleton defaults index). -/
def parse_default_one (hash : String → Nat) (module_index : ModuleIndex)
    (module : String) : Option ModulemdDefaultsRecord :=
  match module_index.get_defaults module with
  | none => none
  | some defaults =>
    let default_stream := defaults.get_default_stream
    let default_profile := defaults.get_default_profiles_for_stream default_stream
    let snippet := module_index.dump_defaults defaults
    some { module := module_index.get_module_name module
           stream := default_stream
           profiles := json_dumps default_profile
           digest := hash snippet
           snippet := snippet }

/-- Embedding of `parse_defaults(module_index)`: iterate the default-streams
key set and keep a record for every module whose defaults object is present. -/
def parse_defaults (hash : String → Nat) (module_index : ModuleIndex) :
    List ModulemdDefaultsRecord :=
  module_index.default_streams_keys.filterMap (parse_default_one hash module_index)

/-- Looking a key up after a dict assignment: the assigned key reads back the
new value, any other key is unaffected. -/
theorem dict_get_dict_set (d : List (String × List String)) (k : String)
    (v : List String) (q : String) :
    dict_get (dict_set d k v) q = if q = k then some v else dict_get d q := by
  induction d with
  | nil =>
    by_cases h : q = k <;> simp [dict_set, dict_get, h, Ne.symm]
  | cons p rest ih =>
    by_cases hp : p.1 = k
    · by_cases hq : q = k
      · simp [dict_set, dict_get, hp, hq]
      · have h1 : p.1 ≠ q := by rw [hp]; exact fun hc => hq hc.symm
        have h2 : ¬ k = q := fun hc => hq hc.symm
        simp [dict_set, dict_get, hp, hq, h1, h2]
    · by_cases hq : p.1 = q
      · have : ¬ q = k := by rw [← hq]; exact hp
        simp [dict_set, dict_get, hp, hq, this]
      · simp [dict_set, dict_get, hp, hq, ih]

/-- Effect of one clause's inner loop on a lookup: if the clause lists the
name, the lookup afterwards returns that clause's streams for the name;
otherwise the dict entry for the name is untouched. -/
theorem dict_get_foldl_modules (modules : List String) (f : String → List String)
    (acc : List (String × List String)) (name : String) :
    dict_get (modules.foldl (fun d m => dict_set d m (f m)) acc) name
      = if name ∈ modules then some (f name) else dict_get acc name := by
  induction modules generalizing acc with
  | nil => simp
  | cons m rest ih =>
    by_cases hr : name ∈ rest
    · simp [List.foldl_cons, ih, hr, List.mem_cons]
    · by_cases hm : name = m
      · subst hm
        simp [List.foldl_cons, ih, hr, dict_get_dict_set]
      · simp [List.foldl_cons, ih, hr, hm, dict_get_dict_set, List.mem_cons]

/-- Lookup after the whole dependency loop: the entry for a name is the
required-stream set of the last clause (in declaration order) that lists the
name; if no clause lists it the starting dict is untouched. -/
theorem dict_get_build_loop (clauses : List DependencyClause)
    (acc : List (String × List String)) (name : String) :
    dict_get (clauses.foldl (fun dependencies dep =>
        dep.runtime_modules.foldl (fun dependencies dependency =>
          dict_set dependencies dependency (dep.runtime_streams dependency)) dependencies)
      acc) name
      = match (clauses.filter (fun dep => decide (name ∈ dep.runtime_modules))).getLast? with
        | some c => some (c.runtime_streams name)
        | none => dict_get acc name := by
  induction clauses generalizing acc with
  | nil => simp
  | cons dep rest ih =>
    rw [List.foldl_cons, ih, List.filter_cons]
    cases hfr : rest.filter (fun dep => decide (name ∈ dep.runtime_modules)) with
    | nil =>
      by_cases hd : name ∈ dep.runtime_modules
      · simp [hd, dict_get_foldl_modules]
      · simp [hd, dict_get_foldl_modules]
    | cons b l =>
      obtain ⟨c, hc⟩ : ∃ c, (b :: l).getLast? = some c := by
        cases h2 : (b :: l).getLast? with
        | some c => exact ⟨c, rfl⟩
        | none => simp at h2
      by_cases hd : name ∈ dep.runtime_modules
      · simp [hd, hc, List.getLast?_cons_cons]
      · simp [hd, hc]

/-- C5: if two or more dependency clauses of a stream list the same runtime
module name, the decomposed record's dependency map entry for that name is
exactly the required-stream set of the last such clause (later clauses
overwrite earlier ones), and the record stores that map serialized as JSON. -/
theorem parse_modulemd_dependency_overwrite (hash : String → Nat)
    (module_index : ModuleIndex) (s : StreamHandle) (name : String)
    (c : DependencyClause)
    (htwo : 2 ≤ (s.dependencies.filter
        (fun dep => decide (name ∈ dep.runtime_modules))).length)
    (hlast : (s.dependencies.filter
        (fun dep => decide (name ∈ dep.runtime_modules))).getLast? = some c) :
    dict_get (build_dependencies s.dependencies) name = some (c.runtime_streams name)
    ∧ (parse_stream hash module_index s).dependencies
        = json_dumps_dict (build_dependencies s.dependencies) := by
  refine ⟨?_, rfl⟩
  rw [build_dependencies, dict_get_build_loop, hlast]

/-- First dependency clause of the test stream: requires platform stream
`f33`. -/
def platformClause1 : DependencyClause :=
  ⟨["platform"], fun _ => ["f33"]⟩

/-- Second dependency clause of the test stream: requires platform stream
`f34`; being later, it must win. -/
def platformClause2 : DependencyClause :=
  ⟨["platform"], fun _ => ["f34"]⟩

/-- Test stream `gorilla:stable` with one RPM artifact and two dependency
clauses both targeting `platform`. -/
def stableStream : StreamHandle :=
  ⟨"gorilla", "stable", 1, "deadbeef", "x86_64", ["gorilla-1.0.rpm"],
    [platformClause1, platformClause2]⟩

/-- Test stream `gorilla:unstable` with an empty artifact list. -/
def unstableStream : StreamHandle :=
  ⟨"gorilla", "unstable", 2, "deadbeef", "x86_64", [], []⟩

/-- Test defaults object for module `gorilla`. -/
def testDefaults : DefaultsHandle :=
  ⟨"stable", fun _ => ["default"]⟩

/-- Test index: module `gorilla` has the two streams above and a defaults
object; `ape` appears in the default-streams key set but its defaults object
is absent. -/
def testIndex : ModuleIndex :=
  ⟨fun _ => [stableStream, unstableStream],
    fun s => s.module_name ++ ":" ++ s.stream_name,
    ["gorilla", "ape"],
    fun m => if m = "gorilla" then some testDefaults else none,
    fun m => m,
    fun d => "defaults:" ++ d.get_default_stream⟩

/-- C5 witness: in the test stream, both clauses target `"platform"` and the
dependency map entry for `"platform"` is the last clause's stream set. -/
theorem parse_modulemd_dependency_overwrite_witness :
    (2 ≤ (stableStream.dependencies.filter
        (fun dep => decide ("platform" ∈ dep.runtime_modules))).length
      ∧ (stableStream.dependencies.filter
        (fun dep => decide ("platform" ∈ dep.runtime_modules))).getLast?
          = some platformClause2)
    ∧ (dict_get (build_dependencies stableStream.dependencies) "platform"
        = some (platformClause2.runtime_streams "platform")
      ∧ (parse_stream String.length testIndex stableStream).dependencies
        = json_dumps_dict (build_dependencies stableStream.dependencies)) :=
  ⟨⟨by decide, rfl⟩,
    parse_modulemd_dependency_overwrite String.length testIndex stableStream
      "platform" platformClause2 (by decide) rfl⟩

/-- C8: `parse_modulemd` emits exactly one record per stream of each
requested module (no stream is silently dropped), and a stream whose RPM
artifact list is empty yields a record whose artifacts attribute serializes
to the JSON string `"[]"`. -/
theorem parse_modulemd_no_stream_dropped (hash : String → Nat)
    (module_names : List String) (module_index : ModuleIndex) :
    (parse_modulemd hash module_names module_index).length
      = (module_names.map (fun m => (module_index.get_all_streams m).length)).sum
    ∧ ∀ m s, m ∈ module_names → s ∈ module_index.get_all_streams m →
        parse_stream hash module_index s ∈ parse_modulemd hash module_names module_index
        ∧ (s.rpm_artifacts = [] → (parse_stream hash module_index s).artifacts = "[]") := by
  constructor
  · simp [parse_modulemd, Function.comp_def, List.length_map]
  · intro m s hm hs
    constructor
    · exact List.mem_flatMap.mpr ⟨m, hm, List.mem_map.mpr ⟨s, hs, rfl⟩⟩
    · intro ha
      have he : (parse_stream hash module_index s).artifacts = json_dumps s.rpm_artifacts := rfl
      rw [he, ha]
      decide

/-- C8 witness: decomposing `module_names = ["gorilla"]` over the test index
keeps the `unstable` stream, and its record's artifacts attribute is the
string `"[]"`. -/
theorem parse_modulemd_no_stream_dropped_witness :
    ("gorilla" ∈ ["gorilla"] ∧ unstableStream ∈ testIndex.get_all_streams "gorilla")
    ∧ (parse_stream String.length testIndex unstableStream
        ∈ parse_modulemd String.length ["gorilla"] testIndex
      ∧ (parse_stream String.length testIndex unstableStream).artifacts = "[]") :=
  have h := (parse_modulemd_no_stream_dropped String.length ["gorilla"] testIndex).2
    "gorilla" unstableStream (by simp) (by simp [testIndex])
  ⟨⟨by simp, by simp [testIndex]⟩, h.1, h.2 rfl⟩

/-- The number of kept elements of a `filterMap` is the number of elements on
which the function returns a value. -/
theorem length_filterMap_eq_length_filter {α β : Type} (f : α → Option β) (l : List α) :
    (l.filterMap f).length = (l.filter (fun a => (f a).isSome)).length := by
  induction l with
  | nil => rfl
  | cons a t ih =>
    cases h : f a <;> simp [List.filterMap_cons, List.filter_cons, h, ih]

/-- `parse_default_one` produces a record exactly when the defaults object is
present. -/
theorem parse_default_one_isSome (hash : String → Nat) (module_index : ModuleIndex)
    (module : String) :
    (parse_default_one hash module_index module).isSome
      = (module_index.get_defaults module).isSome := by
  cases h : module_index.get_defaults module <;> simp [parse_default_one, h]

/-- `parse_default_one` does not read the default-streams key list. -/
theorem parse_default_one_keys (hash : String → Nat) (module_index : ModuleIndex)
    (keys : List String) :
    parse_default_one hash { module_index with default_streams_keys := keys }
      = parse_default_one hash module_index :=
  funext fun _ => rfl

/-- C9: a module name whose defaults object is absent contributes no record —
deleting it from the default-streams key set leaves the output unchanged —
the number of records equals the number of key-set names with a present
defaults object, and every record comes from a key-set name whose defaults
object is present. -/
theorem parse_defaults_skips_absent (hash : String → Nat) (module_index : ModuleIndex)
    (module : String) (pre post : List String)
    (h : module_index.get_defaults module = none) :
    parse_defaults hash { module_index with default_streams_keys := pre ++ module :: post }
      = parse_defaults hash { module_index with default_streams_keys := pre ++ post }
    ∧ (parse_defaults hash module_index).length
        = (module_index.default_streams_keys.filter
            (fun n => (module_index.get_defaults n).isSome)).length
    ∧ ∀ r ∈ parse_defaults hash module_index,
        ∃ n, n ∈ module_index.default_streams_keys
          ∧ ∃ d, module_index.get_defaults n = some d
          ∧ parse_default_one hash module_index n = some r := by
  refine ⟨?_, ?_, ?_⟩
  · simp [parse_defaults, parse_default_one_keys, List.filterMap_append,
      List.filterMap_cons, parse_default_one, h]
  · have hl := length_filterMap_eq_length_filter (parse_default_one hash module_index)
      module_index.default_streams_keys
    have hp : (fun a => (parse_default_one hash module_index a).isSome)
        = (fun n => (module_index.get_defaults n).isSome) :=
      funext fun a => parse_default_one_isSome hash module_index a
    rw [hp] at hl
    exact hl
  · intro r hr
    rcases List.mem_filterMap.mp hr with ⟨n, hn, hfn⟩
    refine ⟨n, hn, ?_⟩
    cases hd : module_index.get_defaults n with
    | none => simp [parse_default_one, hd] at hfn
    | some d => exact ⟨d, rfl, hfn⟩

/-- C9 witness: in the test index, `"ape"` is in the default-streams key set
but has no defaults object; it produces no record, and only `"gorilla"`
(whose defaults object is present) yields one. -/
theorem parse_defaults_skips_absent_witness :
    testIndex.get_defaults "ape" = none
    ∧ (parse_defaults String.length
          { testIndex with default_streams_keys := ["gorilla"] ++ "ape" :: [] }
        = parse_defaults String.length
          { testIndex with default_streams_keys := ["gorilla"] ++ [] }
      ∧ (parse_defaults String.length testIndex).length
          = (testIndex.default_streams_keys.filter
              (fun n => (testIndex.get_defaults n).isSome)).length
      ∧ ∀ r ∈ parse_defaults String.length testIndex,
          ∃ n, n ∈ testIndex.default_streams_keys
            ∧ ∃ d, testIndex.get_defaults n = some d
            ∧ parse_default_one String.length testIndex n = some r) :=
  ⟨rfl, parse_defaults_skips_absent String.length testIndex "ape" ["gorilla"] [] rfl⟩

end PulpRpm
